import Mathlib

/-
Verification of the search-result pipeline of `grep_search.py`:
process-invocation error policy, match-line parsing, adjacent-match
deduplication, the Haskell definition-search query planner, and the
grouped textual report renderer.

Strings are modelled by Lean `String` (a wrapper around `List Char`),
machine integers by `Int` (Python integers are unbounded, so no overflow
modelling is needed).  Python's whitespace-stripping, colon-splitting with
a maximum split count, newline-splitting and integer parsing are defined
below at the character-list level so that every definition evaluates
inside the kernel.  Fallible code (raised exceptions) is modelled with
`Except`.
-/

namespace GrepSearch

/-- Decidable equality for `Except`, used to evaluate concrete pipeline
results in closed theorems. -/
instance instDecEqExcept {ε α : Type} [DecidableEq ε] [DecidableEq α] :
    DecidableEq (Except ε α)
  | .ok a, .ok b =>
    if h : a = b then .isTrue (by rw [h]) else
      .isFalse (by intro g; injection g; contradiction)
  | .ok _, .error _ => .isFalse (by intro g; injection g)
  | .error _, .ok _ => .isFalse (by intro g; injection g)
  | .error a, .error b =>
    if h : a = b then .isTrue (by rw [h]) else
      .isFalse (by intro g; injection g; contradiction)

/-- Python's `str.strip()` on a list of characters: drop whitespace from
both ends. -/
def pyStripList (cs : List Char) : List Char :=
  ((cs.dropWhile Char.isWhitespace).reverse.dropWhile Char.isWhitespace).reverse

/-- Python's `str.strip()`. -/
def pyStrip (s : String) : String :=
  String.mk (pyStripList s.data)

/-- Python's `str.split(sep)` (single-character separator, no maxsplit),
at the list level.  `split` on an empty string yields one empty field,
as in Python. -/
def pySplitCharAux (sep : Char) : List Char → List (List Char)
  | [] => [[]]
  | c :: rest =>
    if c = sep then
      [] :: pySplitCharAux sep rest
    else
      match pySplitCharAux sep rest with
      | [] => [[c]]
      | h :: t => (c :: h) :: t

/-- Python's `str.split(sep)` for a one-character separator. -/
def pySplitChar (sep : Char) (s : String) : List String :=
  (pySplitCharAux sep s.data).map String.mk

/-- Python's `str.split(":", n)`: split on `':'` at most `n` times; once
the budget is exhausted the remainder of the string is one final part. -/
def pySplitColonAux : Nat → List Char → List Char → List (List Char)
  | _, cur, [] => [cur.reverse]
  | 0, cur, c :: cs => [cur.reverse ++ c :: cs]
  | n + 1, cur, c :: cs =>
    if c = ':' then
      cur.reverse :: pySplitColonAux n [] cs
    else
      pySplitColonAux (n + 1) (c :: cur) cs

/-- `line.split(":", 3)` from the parser in `search`. -/
def pySplitColon3 (s : String) : List String :=
  (pySplitColonAux 3 [] s.data).map String.mk

/-- Digit characters of a natural number, most significant first, with a
fuel argument for structural recursion (`fuel > n` suffices). -/
def natDigitsAux : Nat → Nat → List Char
  | 0, _ => []
  | fuel + 1, n =>
    if n < 10 then [Nat.digitChar n]
    else natDigitsAux fuel (n / 10) ++ [Nat.digitChar (n % 10)]

/-- Decimal digit characters of a natural number, as printed by Python's
`str`. -/
def natDigits (n : Nat) : List Char :=
  natDigitsAux (n + 1) n

/-- Python's `str` on a natural number. -/
def natStr (n : Nat) : String :=
  String.mk (natDigits n)

/-- Python's `str` on an integer: a minus sign followed by digits for
negative values, plain digits otherwise. -/
def intStr (i : Int) : String :=
  if i < 0 then String.mk ('-' :: natDigits i.natAbs)
  else String.mk (natDigits i.toNat)

/-- Value of a digit string: `some` of the decimal value when the list is
nonempty and all digits, `none` otherwise. -/
def digitsToNat (cs : List Char) : Option Nat :=
  if cs ≠ [] ∧ cs.all Char.isDigit then
    some (cs.foldl (fun a c => a * 10 + (c.toNat - '0'.toNat)) 0)
  else
    none

/-- Python's `int(str)` conversion: strip whitespace, optional sign, then
decimal digits; `none` models the raised `ValueError`.  (Underscore digit
grouping and non-ASCII digits, which Python also accepts, are omitted:
no behaviour verified here depends on them.) -/
def parsePyInt (s : String) : Option Int :=
  match (pyStrip s).data with
  | [] => none
  | c :: cs =>
    if c = '-' then (digitsToNat cs).map (fun n => -(n : Int))
    else if c = '+' then (digitsToNat cs).map (fun n => (n : Int))
    else (digitsToNat (c :: cs)).map (fun n => (n : Int))

/-- One structured match, as built by the parsing loop in `search`:
`dict(path=..., line_nr=..., col_nr=..., content=...)`. -/
structure Match where
  path : String
  line_nr : Int
  col_nr : Int
  content : String
deriving DecidableEq, Repr

/-- Errors raised by the match-line parsing loop in `search`: too few
colon-separated sections, or a line/column field that `int` rejects.
Both are `ValueError`s in the source; the spec calls both
`MalformedMatchError`. -/
inductive ParseError where
  | tooFewParts (line : String)
  | badInt (field : String)
deriving DecidableEq, Repr

/-- The per-line parser from the loop at the end of `search`:
`parts = line.split(":", 3)`, raising when fewer than four parts result,
then `path=parts[0].strip()`, `line_nr=int(parts[1])`,
`col_nr=int(parts[2])`, `content=parts[3]`. -/
def parseMatchLine (line : String) : Except ParseError Match :=
  match pySplitColon3 line with
  | p0 :: p1 :: p2 :: p3 :: _ =>
    match parsePyInt p1 with
    | none => .error (.badInt p1)
    | some l =>
      match parsePyInt p2 with
      | none => .error (.badInt p2)
      | some c => .ok ⟨pyStrip p0, l, c, p3⟩
  | _ => .error (.tooFewParts line)

/-- The line loop of `search`: iterate over the lines, skip
empty/whitespace-only lines, parse the rest, propagating the first
parse error. -/
def parseLines : List String → Except ParseError (List Match)
  | [] => .ok []
  | l :: rest =>
    if pyStrip l = "" then parseLines rest
    else
      match parseMatchLine l with
      | .error e => .error e
      | .ok m =>
        match parseLines rest with
        | .error e => .error e
        | .ok ms => .ok (m :: ms)

/-- `for line in output.split("\n")` over the stripped stdout of the
process, fed through the parsing loop. -/
def parseOutput (stdout : String) : Except ParseError (List Match) :=
  parseLines (pySplitChar '\n' (pyStrip stdout))

/-- Captured result of the external process invocation
(`subprocess.run(..., capture_output=True, text=True, check=False)`). -/
structure ProcResult where
  stdout : String
  stderr : String
  returncode : Int
deriving DecidableEq, Repr

/-- Failures of a `search` invocation: the engine-reported failure
(`raise ValueError(error)`, the spec's `SearchEngineError`, carrying the
stripped stderr), or a parse failure. -/
inductive SearchFailure where
  | engineError (stderr : String)
  | parseFailure (e : ParseError)
deriving DecidableEq, Repr

/-- `engines_needing_error_output` from the source: engines whose nonzero
exit only counts as an error when stderr is non-empty. -/
def engines_needing_error_output : List String :=
  ["ripgrep", "the_platinum_searcher", "the_silver_searcher"]

/-- The `search` function, with the process-execution collaborator's
result passed explicitly: empty/whitespace query short-circuits to no
matches before any invocation; otherwise stdout/stderr are stripped, the
engine-specific error policy decides failure, and on success the stdout
lines are parsed. -/
def search (engineName query : String) (pr : ProcResult) :
    Except SearchFailure (List Match) :=
  if pyStrip query = "" then .ok []
  else if (if engines_needing_error_output.contains engineName then
      decide (pr.returncode ≠ 0 ∧ pyStrip pr.stderr ≠ "")
    else
      decide (pr.returncode ≠ 0)) then
    .error (.engineError (pyStrip pr.stderr))
  else
    (parseOutput pr.stdout).mapError .parseFailure

/-- `remove_similar_matches` worker: walk the tail of the match list,
always comparing against the immediately preceding input match (the
lookback advances even over dropped matches, exactly as the source
indexes `matches[i - 1]`). -/
def remove_similar_go (ia : Bool) (prev : Match) : List Match → List Match
  | [] => []
  | m :: rest =>
    if m.path = prev.path ∧
        (m.line_nr = prev.line_nr ∨
          (ia = true ∧ m.line_nr = prev.line_nr + 1)) then
      remove_similar_go ia m rest
    else
      m :: remove_similar_go ia m rest

/-- `remove_similar_matches(matches, ignore_adjacents)`: always yield the
first match, then drop any match sharing its predecessor's path whose
line number equals the predecessor's (always) or the predecessor's plus
one (when `ignore_adjacents`). -/
def remove_similar_matches (ms : List Match) (ia : Bool) : List Match :=
  match ms with
  | [] => []
  | m :: rest => m :: remove_similar_go ia m rest

/-- A run of matches on one path with consecutive increasing line numbers
starting at `n` (the runs collapsed by `ignore_adjacents`). -/
def isConsecRun (p : String) : Int → List Match → Bool
  | _, [] => true
  | n, m :: rest =>
    decide (m.path = p) && decide (m.line_nr = n) && isConsecRun p (n + 1) rest

/-- Failure of the Haskell definition-search planner on an
empty/whitespace-only query: the source evaluates `query[0]` after
stripping, which raises `IndexError` on an empty string; the spec names
this failure mode `EmptyQueryError`. -/
inductive PlanFailure where
  | emptyQuery
deriving DecidableEq, Repr

/-- The query-construction part of `search_for_haskell_defns`: strip the
query, classify by its first character (`query[0].isalpha() and
query[0].upper() == query[0]`), and build the ordered labelled sub-query
list with the stripped query text interpolated into each regular
expression. -/
def haskell_defn_queries (query : String) :
    Except PlanFailure (List (String × String)) :=
  match (pyStrip query).data with
  | [] => .error .emptyQuery
  | c :: _ =>
    if c.isAlpha = true ∧ c.toUpper = c then
      .ok
        [ ("Module", "^module +(" ++ pyStrip query ++ ")\\s"),
          ("Type definition",
            "^(data|newtype|type)\\s+" ++ pyStrip query
              ++ "(\\s+[a-z]+)*\\s+(=|where)\\s"),
          ("Class definition",
            "^class\\s+([a-zA-Z\\s.\\(\\),]+=>\\s+)?" ++ pyStrip query
              ++ "(\\s+[a-z]+)*\\s+where\\s"),
          ("Constructor",
            "(" ++ ("(data|newtype) .+\\s* =\\s* " ++ pyStrip query ++ "\\s")
              ++ ")|(" ++ ("\\|\\s* " ++ pyStrip query ++ "\\s") ++ ")") ]
    else
      .ok
        [ ("Value type", "^ *(" ++ pyStrip query ++ ")\\s+::\\s+."),
          ("Value definition",
            "^ *(" ++ pyStrip query ++ ")\\s+[^=$]*\\s=\\s"),
          ("Record getter", " +[\x7b,] +(" ++ pyStrip query ++ ")\\s+::\\s+") ]

/-- Modelled from the spec: the raw match line `path:lineNr:colNr:content`
(§6 "Raw match line format"), the rendering whose round-trip through the
parser the spec asserts.  The source has no such renderer; numbers are
printed as Python's `str` does. -/
def renderRawLine (m : Match) : String :=
  m.path ++ ":" ++ intStr m.line_nr ++ ":" ++ intStr m.col_nr ++ ":" ++ m.content

/-- A match record as handled by `render_matches`: a Python dict whose
`path` key may have been removed by `match.pop('path')`.  `path = none`
models the popped state. -/
structure MatchDict where
  path : Option String
  line_nr : Int
  col_nr : Int
  content : String
deriving DecidableEq, Repr

/-- `matches_by_path[path].append(match)` with `defaultdict(list)`:
append to the group of `p`, creating it at the end on first sight
(Python dicts preserve insertion order). -/
def group_insert (groups : List (String × List MatchDict)) (p : String)
    (m : MatchDict) : List (String × List MatchDict) :=
  match groups with
  | [] => [(p, [m])]
  | (q, ms) :: rest =>
    if q = p then (q, ms ++ [m]) :: rest
    else (q, ms) :: group_insert rest p m

/-- The `match.pop('path')` loop of `render_matches`: for each dict in
order, remove its `path` key (a missing key raises `KeyError`), returning
the popped path paired with the mutated dict. -/
def pop_paths : List MatchDict → Except String (List (String × MatchDict))
  | [] => .ok []
  | m :: rest =>
    match m.path with
    | none => .error "KeyError: path"
    | some p =>
      match pop_paths rest with
      | .error e => .error e
      | .ok r => .ok ((p, { m with path := none }) :: r)

/-- `render_path_matches(path, matches)`: the per-file block of the
grouped report. -/
def render_path_matches (path : String) (ms : List MatchDict) : String :=
  path ++ ":\n"
    ++ String.intercalate "\n"
      (ms.map fun m =>
        "  " ++ intStr m.line_nr ++ ":" ++ intStr m.col_nr ++ " " ++ m.content)

/-- `render_matches(matches, query)`: pop each match's path, group by
path, and render the header plus per-file blocks.  The second component
of the result is the final state of the input match records (each has had
its `path` key popped), making the mutation of the input explicit. -/
def render_matches (ms : List MatchDict) (query : String) :
    Except String (String × List MatchDict) :=
  (pop_paths ms).map fun popped =>
    let groups :=
      popped.foldl (fun gs pm => group_insert gs pm.1 pm.2) []
    let intro :=
      "GrepSearch matches for \"" ++ query ++ "\" ("
        ++ natStr ms.length ++ " lines in "
        ++ natStr groups.length ++ " files):"
    let body :=
      String.intercalate "\n" (groups.map fun g => render_path_matches g.1 g.2)
    (intro ++ "\n\n" ++ body, popped.map Prod.snd)

/-
Helper lemmas about the adjacent-match filter.
-/

/-- Filtering a concatenation: the right part is filtered against the last
element of the left part (the lookback is the previous input match). -/
theorem remove_similar_go_append (ia : Bool) (xs : List Match) :
    ∀ (prev : Match) (ys : List Match),
      remove_similar_go ia prev (xs ++ ys)
        = remove_similar_go ia prev xs
          ++ remove_similar_go ia (xs.getLastD prev) ys := by
  induction xs with
  | nil => intro prev ys; simp [remove_similar_go, List.getLastD]
  | cons x xs ih =>
    intro prev ys
    simp only [List.cons_append, remove_similar_go, List.getLastD_cons,
      List.append_eq]
    by_cases hc :
        x.path = prev.path ∧
          (x.line_nr = prev.line_nr ∨ (ia = true ∧ x.line_nr = prev.line_nr + 1))
    · rw [if_pos hc, if_pos hc, ih x ys]
    · rw [if_neg hc, if_neg hc, ih x ys, List.cons_append]

/-- The filter worker only inspects the lookback's path and line number. -/
theorem remove_similar_go_congr (ia : Bool) (p1 p2 : Match) (xs : List Match)
    (hp : p1.path = p2.path) (hl : p1.line_nr = p2.line_nr) :
    remove_similar_go ia p1 xs = remove_similar_go ia p2 xs := by
  cases xs with
  | nil => rfl
  | cons x t => simp only [remove_similar_go, hp, hl]

/-- With `ignore_adjacents` on, a consecutive same-path run is dropped
entirely when the lookback sits on the same path one line above. -/
theorem remove_similar_go_true_consec (p : String) (rest : List Match) :
    ∀ (n : Int) (prev : Match),
      isConsecRun p n rest = true → prev.path = p → prev.line_nr = n - 1 →
      remove_similar_go true prev rest = [] := by
  induction rest with
  | nil => intros; rfl
  | cons m t ih =>
    intro n prev hrun hp hl
    simp only [isConsecRun, Bool.and_eq_true, decide_eq_true_eq] at hrun
    obtain ⟨⟨hmp, hml⟩, hrest⟩ := hrun
    have hcond : m.path = prev.path ∧
        (m.line_nr = prev.line_nr ∨
          ((true : Bool) = true ∧ m.line_nr = prev.line_nr + 1)) :=
      ⟨by rw [hmp, hp], Or.inr ⟨rfl, by rw [hml, hl]; ring⟩⟩
    rw [remove_similar_go, if_pos hcond]
    exact ih (n + 1) m hrest hmp (by rw [hml]; ring)

/-- With `ignore_adjacents` off, a consecutive same-path run is kept
entirely when the lookback sits one line above (line numbers all differ
from their predecessors). -/
theorem remove_similar_go_false_consec (p : String) (rest : List Match) :
    ∀ (n : Int) (prev : Match),
      isConsecRun p n rest = true → prev.line_nr = n - 1 →
      remove_similar_go false prev rest = rest := by
  induction rest with
  | nil => intros; rfl
  | cons m t ih =>
    intro n prev hrun hl
    simp only [isConsecRun, Bool.and_eq_true, decide_eq_true_eq] at hrun
    obtain ⟨⟨hmp, hml⟩, hrest⟩ := hrun
    have hcond : ¬(m.path = prev.path ∧
        (m.line_nr = prev.line_nr ∨
          ((false : Bool) = true ∧ m.line_nr = prev.line_nr + 1))) := by
      rintro ⟨-, hline | ⟨hfalse, -⟩⟩
      · rw [hml, hl] at hline; omega
      · exact Bool.false_ne_true hfalse
    rw [remove_similar_go, if_neg hcond]
    rw [ih (n + 1) m hrest (by rw [hml]; ring)]

/-- C1 counterexample: the input `[(p,5), (p,5), (p,6)]` contains the
consecutive run `[(p,5), (p,6)]` (k = 2, lines 5 and 6), yet with
`ignore_adjacents=true` the filter emits no member of that run (not
exactly 1), and with `ignore_adjacents=false` it emits only one of the
two (not all k): the run's first element is itself dropped because the
match preceding it has the same path and line number. -/
theorem c1_counterexample :
    isConsecRun "p" 5 [⟨"p", 5, 2, "b"⟩, ⟨"p", 6, 3, "c"⟩] = true
      ∧ remove_similar_matches
          [⟨"p", 5, 1, "a"⟩, ⟨"p", 5, 2, "b"⟩, ⟨"p", 6, 3, "c"⟩] true
          = [⟨"p", 5, 1, "a"⟩]
      ∧ remove_similar_matches
          [⟨"p", 5, 1, "a"⟩, ⟨"p", 5, 2, "b"⟩, ⟨"p", 6, 3, "c"⟩] false
          = [⟨"p", 5, 1, "a"⟩, ⟨"p", 6, 3, "c"⟩]
      ∧ (⟨"p", 5, 2, "b"⟩ : Match) ≠ ⟨"p", 5, 1, "a"⟩
      ∧ (⟨"p", 5, 2, "b"⟩ : Match) ≠ ⟨"p", 6, 3, "c"⟩ :=
  ⟨by decide, by decide, by decide, by decide, by decide⟩

/-- C1 (amended): for a run of consecutive same-path matches with
strictly increasing line numbers that starts the input or is immediately
preceded by a match with a different path, `ignore_adjacents=true` emits
exactly the run's first element in place of the run, and
`ignore_adjacents=false` emits the whole run; in both cases the part of
the input before the run filters as before, and the part after the run is
filtered with the run's last element as lookback. -/
theorem c1_run_collapse (pre rest suf : List Match) (m0 : Match)
    (p : String) (n : Int)
    (hrun : isConsecRun p n (m0 :: rest) = true)
    (hpre : pre = [] ∨ ∃ lst, pre.getLast? = some lst ∧ lst.path ≠ p) :
    remove_similar_matches (pre ++ ((m0 :: rest) ++ suf)) true
        = remove_similar_matches pre true
          ++ m0 :: remove_similar_go true (rest.getLastD m0) suf
      ∧ remove_similar_matches (pre ++ ((m0 :: rest) ++ suf)) false
        = remove_similar_matches pre false
          ++ ((m0 :: rest) ++ remove_similar_go false (rest.getLastD m0) suf) := by
  simp only [isConsecRun, Bool.and_eq_true, decide_eq_true_eq] at hrun
  obtain ⟨⟨h0p, h0l⟩, hrest⟩ := hrun
  have htrue : remove_similar_go true m0 rest = [] :=
    remove_similar_go_true_consec p rest (n + 1) m0 hrest h0p
      (by rw [h0l]; ring)
  have hfalse : remove_similar_go false m0 rest = rest :=
    remove_similar_go_false_consec p rest (n + 1) m0 hrest
      (by rw [h0l]; ring)
  have hhead : ∀ (ia : Bool) (prev : Match), prev.path ≠ p →
      remove_similar_go ia prev ((m0 :: rest) ++ suf)
        = m0 :: (remove_similar_go ia m0 rest
            ++ remove_similar_go ia (rest.getLastD m0) suf) := by
    intro ia prev hprev
    have hcond : ¬(m0.path = prev.path ∧
        (m0.line_nr = prev.line_nr ∨
          (ia = true ∧ m0.line_nr = prev.line_nr + 1))) := by
      rintro ⟨he, -⟩
      exact hprev (by rw [← he]; exact h0p)
    rw [List.cons_append, remove_similar_go, if_neg hcond,
      remove_similar_go_append ia rest m0 suf]
  rcases hpre with rfl | ⟨lst, hlast, hlp⟩
  · rw [List.nil_append]
    constructor
    · rw [List.cons_append]
      simp only [remove_similar_matches]
      rw [remove_similar_go_append true rest m0 suf, htrue]
      simp
    · rw [List.cons_append]
      simp only [remove_similar_matches]
      rw [remove_similar_go_append false rest m0 suf, hfalse]
      simp
  · obtain ⟨q, pre', rfl⟩ : ∃ q pre', pre = q :: pre' := by
      cases pre with
      | nil => simp at hlast
      | cons a b => exact ⟨a, b, rfl⟩
    have hlst : pre'.getLastD q = lst := by
      rw [List.getLast?_cons] at hlast
      injection hlast with hv
      rw [List.getLastD_eq_getLast?]
      exact hv
    constructor
    · rw [List.cons_append]
      simp only [remove_similar_matches]
      rw [remove_similar_go_append true pre' q ((m0 :: rest) ++ suf),
        hlst, hhead true lst hlp, htrue]
      simp
    · rw [List.cons_append]
      simp only [remove_similar_matches]
      rw [remove_similar_go_append false pre' q ((m0 :: rest) ++ suf),
        hlst, hhead false lst hlp, hfalse]
      simp

/-- C1 witness: the amended theorem applied to a concrete run of two
matches at the start of the input, followed by one different-path
match. -/
theorem c1_run_collapse_witness :
    remove_similar_matches
        ([] ++ (((⟨"p", 1, 0, "x"⟩ : Match) :: [⟨"p", 2, 0, "y"⟩])
          ++ [⟨"q", 9, 0, "z"⟩])) true
        = remove_similar_matches [] true
          ++ (⟨"p", 1, 0, "x"⟩ : Match)
            :: remove_similar_go true
              ([(⟨"p", 2, 0, "y"⟩ : Match)].getLastD ⟨"p", 1, 0, "x"⟩)
              [⟨"q", 9, 0, "z"⟩]
      ∧ remove_similar_matches
          ([] ++ (((⟨"p", 1, 0, "x"⟩ : Match) :: [⟨"p", 2, 0, "y"⟩])
            ++ [⟨"q", 9, 0, "z"⟩])) false
        = remove_similar_matches [] false
          ++ (((⟨"p", 1, 0, "x"⟩ : Match) :: [⟨"p", 2, 0, "y"⟩])
            ++ remove_similar_go false
              ([(⟨"p", 2, 0, "y"⟩ : Match)].getLastD ⟨"p", 1, 0, "x"⟩)
              [⟨"q", 9, 0, "z"⟩]) :=
  c1_run_collapse [] [⟨"p", 2, 0, "y"⟩] [⟨"q", 9, 0, "z"⟩]
    ⟨"p", 1, 0, "x"⟩ "p" 1 (by decide) (Or.inl rfl)

/-- C8 counterexample: the second and third matches are adjacent with
equal path and equal line number, yet neither survives (the claim says
exactly one of them does): the earlier of the pair was itself dropped as
a duplicate of the first match. -/
theorem c8_counterexample :
    remove_similar_matches
        [⟨"p", 5, 1, "a"⟩, ⟨"p", 5, 2, "b"⟩, ⟨"p", 5, 3, "c"⟩] false
        = [⟨"p", 5, 1, "a"⟩]
      ∧ remove_similar_matches
          [⟨"p", 5, 1, "a"⟩, ⟨"p", 5, 2, "b"⟩, ⟨"p", 5, 3, "c"⟩] true
          = [⟨"p", 5, 1, "a"⟩]
      ∧ (⟨"p", 5, 2, "b"⟩ : Match) ≠ ⟨"p", 5, 1, "a"⟩
      ∧ (⟨"p", 5, 3, "c"⟩ : Match) ≠ ⟨"p", 5, 1, "a"⟩ :=
  ⟨by decide, by decide, by decide, by decide⟩

/-- C8 (amended): of two adjacent matches with equal path and line
number, the later one never survives, for both values of
`ignore_adjacents`: the filtered output is exactly the filtered output of
the input with the later duplicate deleted (so at most one of the pair —
the earlier one — is ever emitted, and exactly one precisely when the
earlier one survives its own comparison, e.g. when the pair starts the
input). -/
theorem c8_duplicate_line_dropped (pre suf : List Match) (m1 m2 : Match)
    (ia : Bool) (hp : m2.path = m1.path) (hl : m2.line_nr = m1.line_nr) :
    remove_similar_matches (pre ++ m1 :: m2 :: suf) ia
      = remove_similar_matches (pre ++ m1 :: suf) ia := by
  have hgo2 : remove_similar_go ia m1 (m2 :: suf)
      = remove_similar_go ia m1 suf := by
    rw [remove_similar_go, if_pos ⟨hp, Or.inl hl⟩]
    exact remove_similar_go_congr ia m2 m1 suf hp hl
  have hrec : ∀ (l : List Match) (prev : Match),
      remove_similar_go ia prev (l ++ m1 :: m2 :: suf)
        = remove_similar_go ia prev (l ++ m1 :: suf) := by
    intro l
    induction l with
    | nil =>
      intro prev
      by_cases hc : m1.path = prev.path ∧
          (m1.line_nr = prev.line_nr ∨
            (ia = true ∧ m1.line_nr = prev.line_nr + 1))
      · rw [List.nil_append, List.nil_append, remove_similar_go, if_pos hc,
          hgo2, remove_similar_go, if_pos hc]
      · rw [List.nil_append, List.nil_append, remove_similar_go, if_neg hc,
          hgo2, remove_similar_go, if_neg hc]
    | cons x t ih =>
      intro prev
      by_cases hc : x.path = prev.path ∧
          (x.line_nr = prev.line_nr ∨
            (ia = true ∧ x.line_nr = prev.line_nr + 1))
      · rw [List.cons_append, remove_similar_go, if_pos hc, ih x,
          List.cons_append, remove_similar_go, if_pos hc]
      · rw [List.cons_append, remove_similar_go, if_neg hc, ih x,
          List.cons_append, remove_similar_go, if_neg hc]
  cases pre with
  | nil =>
    simp only [List.nil_append, remove_similar_matches]
    rw [hgo2]
  | cons q pre' =>
    simp only [List.cons_append, remove_similar_matches]
    rw [hrec pre' q]

/-- C8 witness: the amended theorem at a concrete duplicate pair
preceded and followed by other matches. -/
theorem c8_duplicate_line_dropped_witness :
    remove_similar_matches
        ([⟨"q", 1, 1, "u"⟩]
          ++ (⟨"p", 5, 1, "a"⟩ : Match) :: (⟨"p", 5, 2, "b"⟩ : Match)
            :: [⟨"p", 9, 1, "v"⟩]) false
      = remove_similar_matches
          ([⟨"q", 1, 1, "u"⟩]
            ++ (⟨"p", 5, 1, "a"⟩ : Match) :: [⟨"p", 9, 1, "v"⟩]) false :=
  c8_duplicate_line_dropped [⟨"q", 1, 1, "u"⟩] [⟨"p", 9, 1, "v"⟩]
    ⟨"p", 5, 1, "a"⟩ ⟨"p", 5, 2, "b"⟩ false rfl rfl

/-- C7: a query that is empty after stripping short-circuits `search` to
zero matches; the result does not depend on the process result at all
(the process is never consulted), including process results that would
otherwise count as failures. -/
theorem search_empty_query_no_matches (eng q : String) (pr : ProcResult)
    (h : pyStrip q = "") : search eng q pr = .ok [] := by
  unfold search
  rw [if_pos h]

/-- C7 witness: a whitespace-only query yields no matches even when the
process result reports a nonzero exit with error output. -/
theorem search_empty_query_no_matches_witness :
    search "ripgrep" " \t" ⟨"junk", "boom", 2⟩ = .ok [] :=
  search_empty_query_no_matches "ripgrep" " \t" ⟨"junk", "boom", 2⟩ (by decide)

/-- C4: a query that is empty after stripping makes the definition-search
planner fail with the empty-query error (the source raises at
`query[0]`). -/
theorem haskell_defn_queries_empty_query (query : String)
    (h : pyStrip query = "") :
    haskell_defn_queries query = .error .emptyQuery := by
  unfold haskell_defn_queries
  rw [h]

/-- C4 witness: the planner rejects a whitespace-only query. -/
theorem haskell_defn_queries_empty_query_witness :
    haskell_defn_queries " \t " = .error .emptyQuery :=
  haskell_defn_queries_empty_query " \t " (by decide)

/-- Reduction of the planner on a query whose stripped form starts with
character `c`. -/
theorem haskell_defn_queries_cons (query : String) (c : Char)
    (cs : List Char) (h : (pyStrip query).data = c :: cs) :
    haskell_defn_queries query =
      (if c.isAlpha = true ∧ c.toUpper = c then
        .ok
          [ ("Module", "^module +(" ++ pyStrip query ++ ")\\s"),
            ("Type definition",
              "^(data|newtype|type)\\s+" ++ pyStrip query
                ++ "(\\s+[a-z]+)*\\s+(=|where)\\s"),
            ("Class definition",
              "^class\\s+([a-zA-Z\\s.\\(\\),]+=>\\s+)?" ++ pyStrip query
                ++ "(\\s+[a-z]+)*\\s+where\\s"),
            ("Constructor",
              "(" ++ ("(data|newtype) .+\\s* =\\s* " ++ pyStrip query ++ "\\s")
                ++ ")|(" ++ ("\\|\\s* " ++ pyStrip query ++ "\\s") ++ ")") ]
      else
        .ok
          [ ("Value type", "^ *(" ++ pyStrip query ++ ")\\s+::\\s+."),
            ("Value definition",
              "^ *(" ++ pyStrip query ++ ")\\s+[^=$]*\\s=\\s"),
            ("Record getter",
              " +[\x7b,] +(" ++ pyStrip query ++ ")\\s+::\\s+") ]) := by
  unfold haskell_defn_queries
  rw [h]

/-- C6: if the stripped query's first character is alphabetic and
uppercase the planner yields exactly the four sub-queries labelled
Module, Type definition, Class definition, Constructor in that order;
otherwise (still nonempty) exactly the three labelled Value type, Value
definition, Record getter in that order. -/
theorem haskell_defn_queries_labels (query : String) (c : Char)
    (cs : List Char) (h : (pyStrip query).data = c :: cs) :
    ((c.isAlpha = true ∧ c.toUpper = c) →
        ∃ l, haskell_defn_queries query = .ok l
          ∧ l.map Prod.fst
            = ["Module", "Type definition", "Class definition",
                "Constructor"])
      ∧ (¬(c.isAlpha = true ∧ c.toUpper = c) →
        ∃ l, haskell_defn_queries query = .ok l
          ∧ l.map Prod.fst
            = ["Value type", "Value definition", "Record getter"]) := by
  constructor
  · intro hc
    rw [haskell_defn_queries_cons query c cs h, if_pos hc]
    exact ⟨_, rfl, rfl⟩
  · intro hc
    rw [haskell_defn_queries_cons query c cs h, if_neg hc]
    exact ⟨_, rfl, rfl⟩

/-- C6 witness: the uppercase-first query `"Foo"` yields the four
type/constructor sub-query labels; the lowercase-first query `"foo"`
yields the three value sub-query labels. -/
theorem haskell_defn_queries_labels_witness :
    (∃ l, haskell_defn_queries "Foo" = .ok l
        ∧ l.map Prod.fst
          = ["Module", "Type definition", "Class definition", "Constructor"])
      ∧ ∃ l, haskell_defn_queries "foo" = .ok l
        ∧ l.map Prod.fst = ["Value type", "Value definition", "Record getter"] :=
  ⟨(haskell_defn_queries_labels "Foo" 'F' ['o', 'o'] (by decide)).1
      (by decide),
    (haskell_defn_queries_labels "foo" 'f' ['o', 'o'] (by decide)).2
      (by decide)⟩

/-- The parsing path of `search` can only fail with a parse failure,
never with an engine error. -/
theorem mapError_parseFailure_ne_engineError
    (r : Except ParseError (List Match)) (e : String) :
    r.mapError SearchFailure.parseFailure ≠ .error (.engineError e) := by
  cases r with
  | ok ms => simp [Except.mapError]
  | error pe => simp [Except.mapError]

/-- C2 counterexample: `ripgrep` is in the allow-list; exit code 2 is
nonzero and the captured stderr `" "` is a non-empty string, yet the
invocation succeeds with zero matches, because the code checks the
stripped stderr for emptiness. -/
theorem c2_counterexample :
    engines_needing_error_output.contains "ripgrep" = true
      ∧ (2 : Int) ≠ 0
      ∧ (" " : String) ≠ ""
      ∧ search "ripgrep" "foo" ⟨"", " ", 2⟩ = .ok [] :=
  ⟨by decide, by decide, by decide, by decide⟩

/-- C2 (amended): for a nonempty (after stripping) query, an allow-listed
engine fails with the engine error exactly when the exit code is nonzero
and the stderr is non-empty after stripping whitespace; any other engine
fails exactly when the exit code is nonzero; and an allow-listed engine
whose stripped stderr is empty always proceeds to parse stdout (so exit
code 2 with empty stderr yields the parsed matches). -/
theorem search_engine_error_iff (eng q : String) (pr : ProcResult)
    (h : pyStrip q ≠ "") :
    (engines_needing_error_output.contains eng = true →
        ((∃ e, search eng q pr = .error (.engineError e)) ↔
          (pr.returncode ≠ 0 ∧ pyStrip pr.stderr ≠ "")))
      ∧ (engines_needing_error_output.contains eng = false →
        ((∃ e, search eng q pr = .error (.engineError e)) ↔
          pr.returncode ≠ 0))
      ∧ (engines_needing_error_output.contains eng = true →
        pyStrip pr.stderr = "" →
        search eng q pr = (parseOutput pr.stdout).mapError .parseFailure) := by
  refine ⟨?_, ?_, ?_⟩
  · intro hmem
    unfold search
    rw [if_neg h, hmem, if_pos rfl]
    by_cases hc : pr.returncode ≠ 0 ∧ pyStrip pr.stderr ≠ ""
    · rw [if_pos (decide_eq_true hc)]
      exact iff_of_true ⟨_, rfl⟩ hc
    · rw [if_neg (by rw [decide_eq_false hc]; exact Bool.false_ne_true)]
      refine iff_of_false ?_ hc
      rintro ⟨e, he⟩
      exact mapError_parseFailure_ne_engineError _ e he
  · intro hmem
    unfold search
    rw [if_neg h, hmem, if_neg Bool.false_ne_true]
    by_cases hc : pr.returncode ≠ 0
    · rw [if_pos (decide_eq_true hc)]
      exact iff_of_true ⟨_, rfl⟩ hc
    · rw [if_neg (by rw [decide_eq_false hc]; exact Bool.false_ne_true)]
      refine iff_of_false ?_ hc
      rintro ⟨e, he⟩
      exact mapError_parseFailure_ne_engineError _ e he
  · intro hmem hws
    unfold search
    rw [if_neg h, hmem, if_pos rfl,
      if_neg (by
        rw [decide_eq_false (fun hc => hc.2 hws)]
        exact Bool.false_ne_true)]

/-- C2 witness: the amended theorem applied concretely: for the
allow-listed engine `ripgrep` with nonzero exit and stripped-nonempty
stderr an engine error is raised; for the non-listed engine `grep` with
exit 0 no engine error is possible; and exit 2 with whitespace-only
stderr parses stdout. -/
theorem search_engine_error_iff_witness :
    (∃ e, search "ripgrep" "x" ⟨"", "boom", 2⟩ = .error (.engineError e))
      ∧ ¬(∃ e, search "grep" "x" ⟨"", "boom", 0⟩ = .error (.engineError e))
      ∧ search "ripgrep" "x" ⟨"a.py:1:2:z", " ", 2⟩
        = (parseOutput "a.py:1:2:z").mapError .parseFailure :=
  ⟨((search_engine_error_iff "ripgrep" "x" ⟨"", "boom", 2⟩ (by decide)).1
      (by decide)).mpr ⟨by decide, by decide⟩,
    fun hex =>
      (by decide : ¬((0 : Int) ≠ 0))
        (((search_engine_error_iff "grep" "x" ⟨"", "boom", 0⟩ (by decide)).2.1
          (by decide)).mp hex),
    (search_engine_error_iff "ripgrep" "x" ⟨"a.py:1:2:z", " ", 2⟩
      (by decide)).2.2 (by decide) (by decide)⟩

/-- C9: for an allow-listed engine, whitespace-only stderr counts as
empty (the invocation proceeds to parse stdout whatever the exit code),
and whenever the engine error is raised it carries the stripped stderr
text. -/
theorem search_stderr_stripped (eng q : String) (pr : ProcResult)
    (hmem : engines_needing_error_output.contains eng = true) :
    (pyStrip q ≠ "" → pyStrip pr.stderr = "" →
        search eng q pr = (parseOutput pr.stdout).mapError .parseFailure)
      ∧ ∀ e, search eng q pr = .error (.engineError e) →
          e = pyStrip pr.stderr := by
  constructor
  · intro hq hws
    unfold search
    rw [if_neg hq, hmem, if_pos rfl,
      if_neg (by
        rw [decide_eq_false (fun hc => hc.2 hws)]
        exact Bool.false_ne_true)]
  · intro e he
    by_cases hq : pyStrip q = ""
    · unfold search at he
      rw [if_pos hq] at he
      exact Except.noConfusion he
    · unfold search at he
      rw [if_neg hq] at he
      split at he
      · split at he
        · injection he with h1
          injection h1 with h2
          exact h2.symm
        · exact absurd he (mapError_parseFailure_ne_engineError _ e)
      · split at he
        · injection he with h1
          injection h1 with h2
          exact h2.symm
        · exact absurd he (mapError_parseFailure_ne_engineError _ e)

/-- C9 witness: exit code 2 with tab-and-space stderr is a success for
`ripgrep` (stdout is parsed), and a raised engine error carries the
stripped stderr. -/
theorem search_stderr_stripped_witness :
    search "ripgrep" "x" ⟨"a.py:1:2:z", " \t ", 2⟩
        = (parseOutput "a.py:1:2:z").mapError .parseFailure
      ∧ "boom" = pyStrip "boom " :=
  ⟨(search_stderr_stripped "ripgrep" "x" ⟨"a.py:1:2:z", " \t ", 2⟩
      (by decide)).1 (by decide) (by decide),
    (search_stderr_stripped "ripgrep" "x" ⟨"", "boom ", 2⟩ (by decide)).2
      "boom" (by decide)⟩

/-
Helper lemmas about the bounded colon split and the parser.
-/

/-- Length of a bounded split: one more than the number of separators,
capped by the split budget. -/
theorem pySplitColonAux_length (cs : List Char) :
    ∀ (n : Nat) (cur : List Char),
      (pySplitColonAux n cur cs).length = min (cs.count ':') n + 1 := by
  induction cs with
  | nil => intro n cur; simp [pySplitColonAux]
  | cons c t ih =>
    intro n cur
    cases n with
    | zero => simp [pySplitColonAux]
    | succ n =>
      by_cases hc : c = ':'
      · subst hc
        rw [pySplitColonAux, if_pos rfl]
        simp only [List.length_cons, ih n []]
        simp [List.count_cons]
        omega
      · rw [pySplitColonAux, if_neg hc]
        rw [ih (n + 1) (c :: cur)]
        simp [List.count_cons, hc]

/-- A line with fewer than three colons parses to the too-few-parts
error. -/
theorem parseMatchLine_too_few (line : String)
    (h : line.data.count ':' < 3) :
    parseMatchLine line = .error (.tooFewParts line) := by
  have hlen : (pySplitColon3 line).length < 4 := by
    unfold pySplitColon3
    rw [List.length_map, pySplitColonAux_length line.data 3 []]
    omega
  unfold parseMatchLine
  rcases hp : pySplitColon3 line with _ | ⟨a, _ | ⟨b, _ | ⟨c, t⟩⟩⟩
  · rfl
  · rfl
  · rfl
  · cases t with
    | nil => rfl
    | cons d t2 =>
      exfalso
      rw [hp] at hlen
      simp at hlen
      omega

/-- C5: the bounded split yields at most four parts; it yields fewer than
four exactly when the line has fewer than three colons, in which case the
parser fails with the too-few-parts error; and the line loop never skips
such a line — a successfully parsed output contains no non-blank line
with fewer than three colons. -/
theorem parser_rejects_short_lines :
    (∀ line : String,
        (pySplitColon3 line).length ≤ 4
          ∧ ((pySplitColon3 line).length < 4 ↔ line.data.count ':' < 3)
          ∧ (line.data.count ':' < 3 →
            parseMatchLine line = .error (.tooFewParts line)))
      ∧ ∀ ls ms, parseLines ls = .ok ms →
          ∀ l ∈ ls, pyStrip l ≠ "" → ¬l.data.count ':' < 3 := by
  constructor
  · intro line
    have hlen : (pySplitColon3 line).length
        = min (line.data.count ':') 3 + 1 := by
      unfold pySplitColon3
      rw [List.length_map, pySplitColonAux_length line.data 3 []]
    refine ⟨by omega, by omega, parseMatchLine_too_few line⟩
  · intro ls
    induction ls with
    | nil => intro ms h l hl; simp at hl
    | cons a t ih =>
      intro ms h l hl hne hcount
      rw [parseLines] at h
      rcases List.mem_cons.mp hl with rfl | hmem
      · rw [if_neg hne, parseMatchLine_too_few l hcount] at h
        exact Except.noConfusion h
      · by_cases ha : pyStrip a = ""
        · rw [if_pos ha] at h
          exact ih ms h l hmem hne hcount
        · rw [if_neg ha] at h
          cases hm : parseMatchLine a with
          | error e =>
            rw [hm] at h
            exact Except.noConfusion h
          | ok m =>
            rw [hm] at h
            cases ht : parseLines t with
            | error e =>
              rw [ht] at h
              exact Except.noConfusion h
            | ok ms2 => exact ih ms2 ht l hmem hne hcount

/-- C5 witness: the two-colon line `"ab:cd"` is rejected with the
too-few-parts error, and a successfully parsed one-line output certifies
its line has at least three colons. -/
theorem parser_rejects_short_lines_witness :
    parseMatchLine "ab:cd" = .error (.tooFewParts "ab:cd")
      ∧ ¬("a.py:1:2:q".data.count ':' < 3) :=
  ⟨(parser_rejects_short_lines.1 "ab:cd").2.2 (by decide),
    parser_rejects_short_lines.2 ["a.py:1:2:q"] [⟨"a.py", 1, 2, "q"⟩]
      (by decide) "a.py:1:2:q" (by decide) (by decide)⟩

/-
Helper lemmas about decimal printing, integer parsing and the raw-line
round trip.
-/

/-- Rebuilding a string from its characters is the identity. -/
theorem mk_data : ∀ s : String, String.mk s.data = s
  | ⟨_⟩ => rfl

/-- Digit characters produced by `Nat.digitChar` below ten are decimal
digits. -/
theorem digitChar_isDigit (d : Nat) (h : d < 10) :
    (Nat.digitChar d).isDigit = true := by
  interval_cases d <;> decide

/-- Value of a digit character produced by `Nat.digitChar` below ten. -/
theorem digitChar_val (d : Nat) (h : d < 10) :
    (Nat.digitChar d).toNat - '0'.toNat = d := by
  interval_cases d <;> decide

/-- All characters printed for a natural number are decimal digits. -/
theorem natDigitsAux_digits (fuel : Nat) :
    ∀ (n : Nat), n < fuel → ∀ c ∈ natDigitsAux fuel n, c.isDigit = true := by
  induction fuel with
  | zero => intro n h; omega
  | succ fuel ih =>
    intro n h c hc
    rw [natDigitsAux] at hc
    by_cases h10 : n < 10
    · rw [if_pos h10] at hc
      simp at hc
      subst hc
      exact digitChar_isDigit n h10
    · rw [if_neg h10] at hc
      rcases List.mem_append.mp hc with h1 | h2
      · have hdiv : n / 10 < fuel := by
          have := Nat.div_lt_self (show 0 < n by omega) (show 1 < 10 by omega)
          omega
        exact ih (n / 10) hdiv c h1
      · simp at h2
        subst h2
        exact digitChar_isDigit (n % 10) (Nat.mod_lt n (by omega))

/-- The printed digit list of a natural number is never empty. -/
theorem natDigitsAux_ne_nil (fuel n : Nat) (h : n < fuel) :
    natDigitsAux fuel n ≠ [] := by
  cases fuel with
  | zero => omega
  | succ fuel =>
    rw [natDigitsAux]
    by_cases h10 : n < 10 <;> simp [h10]

/-- Folding the digit values over the printed digits recovers the
number. -/
theorem natDigitsAux_foldl (fuel : Nat) :
    ∀ (n a : Nat), n < fuel →
      (natDigitsAux fuel n).foldl
          (fun acc c => acc * 10 + (c.toNat - '0'.toNat)) a
        = a * 10 ^ (natDigitsAux fuel n).length + n := by
  induction fuel with
  | zero => intro n a h; omega
  | succ fuel ih =>
    intro n a h
    rw [natDigitsAux]
    by_cases h10 : n < 10
    · rw [if_pos h10]
      simp only [List.foldl_cons, List.foldl_nil, List.length_cons,
        List.length_nil, pow_one, digitChar_val n h10]
      rw [pow_one]
    · rw [if_neg h10]
      have hdiv : n / 10 < fuel := by
        have := Nat.div_lt_self (show 0 < n by omega) (show 1 < 10 by omega)
        omega
      rw [List.foldl_append, ih (n / 10) a hdiv]
      simp only [List.foldl_cons, List.foldl_nil]
      rw [digitChar_val (n % 10) (Nat.mod_lt n (by omega))]
      rw [List.length_append, List.length_cons, List.length_nil]
      have hmod := Nat.div_add_mod n 10
      calc (a * 10 ^ (natDigitsAux fuel (n / 10)).length + n / 10) * 10
            + n % 10
          = a * 10 ^ ((natDigitsAux fuel (n / 10)).length + (0 + 1))
            + (10 * (n / 10) + n % 10) := by ring
        _ = a * 10 ^ ((natDigitsAux fuel (n / 10)).length + (0 + 1)) + n := by
            rw [hmod]

/-- Parsing the printed digits of a natural number recovers it. -/
theorem digitsToNat_natDigits (n : Nat) :
    digitsToNat (natDigits n) = some n := by
  have h1 : natDigits n ≠ [] := natDigitsAux_ne_nil (n + 1) n (by omega)
  have h2 : (natDigits n).all Char.isDigit = true :=
    List.all_eq_true.mpr
      (fun c hc => natDigitsAux_digits (n + 1) n (by omega) c hc)
  unfold digitsToNat
  rw [if_pos ⟨h1, h2⟩]
  unfold natDigits
  rw [natDigitsAux_foldl (n + 1) n 0 (by omega)]
  simp

/-- Decimal digits are not whitespace. -/
theorem isDigit_not_ws (c : Char) (h : c.isDigit = true) :
    c.isWhitespace = false := by
  cases hw : c.isWhitespace with
  | false => rfl
  | true =>
    exfalso
    simp only [Char.isWhitespace, Bool.or_eq_true, decide_eq_true_eq] at hw
    rcases hw with ((rfl | rfl) | rfl) | rfl <;> exact absurd h (by decide)

/-- `dropWhile` is the identity on a list with no satisfying element. -/
theorem dropWhile_eq_self_of_none (p : Char → Bool) (cs : List Char)
    (h : ∀ c ∈ cs, p c = false) : List.dropWhile p cs = cs := by
  cases cs with
  | nil => rfl
  | cons c t =>
    rw [List.dropWhile_cons, if_neg (by simp [h c (List.mem_cons_self c t)])]

/-- Stripping a whitespace-free character list is the identity. -/
theorem pyStripList_id (cs : List Char)
    (h : ∀ c ∈ cs, c.isWhitespace = false) : pyStripList cs = cs := by
  unfold pyStripList
  rw [dropWhile_eq_self_of_none _ cs h,
    dropWhile_eq_self_of_none _ cs.reverse
      (fun c hc => h c (List.mem_reverse.mp hc)),
    List.reverse_reverse]

/-- `parsePyInt` on a rebuilt string, reduced to the character level. -/
theorem parsePyInt_mk (cs : List Char) :
    parsePyInt (String.mk cs) =
      match pyStripList cs with
      | [] => none
      | c :: cs2 =>
        if c = '-' then (digitsToNat cs2).map (fun n => -(n : Int))
        else if c = '+' then (digitsToNat cs2).map (fun n => (n : Int))
        else (digitsToNat (c :: cs2)).map (fun n => (n : Int)) := rfl

/-- Parsing the printed form of an integer recovers it. -/
theorem parsePyInt_intStr (i : Int) : parsePyInt (intStr i) = some i := by
  unfold intStr
  by_cases hneg : i < 0
  · rw [if_pos hneg]
    have hd : ∀ c ∈ natDigits i.natAbs, c.isDigit = true :=
      fun c hc => natDigitsAux_digits (i.natAbs + 1) i.natAbs (by omega) c hc
    have hws : ∀ c ∈ '-' :: natDigits i.natAbs, c.isWhitespace = false := by
      intro c hc
      rcases List.mem_cons.mp hc with rfl | hm
      · decide
      · exact isDigit_not_ws c (hd c hm)
    rw [parsePyInt_mk, pyStripList_id _ hws]
    rw [show (match ('-' :: natDigits i.natAbs : List Char) with
        | [] => (none : Option Int)
        | c :: cs2 =>
          if c = '-' then (digitsToNat cs2).map (fun n => -(n : Int))
          else if c = '+' then (digitsToNat cs2).map (fun n => (n : Int))
          else (digitsToNat (c :: cs2)).map (fun n => (n : Int)))
      = (digitsToNat (natDigits i.natAbs)).map (fun n => -(n : Int)) from rfl]
    rw [digitsToNat_natDigits]
    show some (-(i.natAbs : Int)) = some i
    exact congrArg some (by omega)
  · rw [if_neg hneg]
    have hd : ∀ c ∈ natDigits i.toNat, c.isDigit = true :=
      fun c hc => natDigitsAux_digits (i.toNat + 1) i.toNat (by omega) c hc
    have hws : ∀ c ∈ natDigits i.toNat, c.isWhitespace = false :=
      fun c hc => isDigit_not_ws c (hd c hc)
    rw [parsePyInt_mk, pyStripList_id _ hws]
    cases hnd : natDigits i.toNat with
    | nil => exact absurd hnd (natDigitsAux_ne_nil (i.toNat + 1) i.toNat (by omega))
    | cons c cs2 =>
      have hcd : c.isDigit = true := hd c (by rw [hnd]; exact List.mem_cons_self c cs2)
      have hc1 : ¬c = '-' := fun hh => absurd (hh ▸ hcd) (by decide)
      have hc2 : ¬c = '+' := fun hh => absurd (hh ▸ hcd) (by decide)
      rw [show (match (c :: cs2 : List Char) with
          | [] => (none : Option Int)
          | c2 :: cs3 =>
            if c2 = '-' then (digitsToNat cs3).map (fun n => -(n : Int))
            else if c2 = '+' then (digitsToNat cs3).map (fun n => (n : Int))
            else (digitsToNat (c2 :: cs3)).map (fun n => (n : Int)))
        = if c = '-' then (digitsToNat cs2).map (fun n => -(n : Int))
          else if c = '+' then (digitsToNat cs2).map (fun n => (n : Int))
          else (digitsToNat (c :: cs2)).map (fun n => (n : Int)) from rfl]
      rw [if_neg hc1, if_neg hc2, ← hnd, digitsToNat_natDigits]
      show some ((i.toNat : Int)) = some i
      exact congrArg some (by omega)

/-- Exhausted split budget: the remainder is a single part. -/
theorem pySplitColonAux_zero (cur cs : List Char) :
    pySplitColonAux 0 cur cs = [cur.reverse ++ cs] := by
  cases cs with
  | nil => simp [pySplitColonAux]
  | cons c t => rfl

/-- Splitting past a colon-free prefix consumes one split. -/
theorem pySplitColonAux_no_colon :
    ∀ (a : List Char), (∀ c ∈ a, ¬c = ':') →
      ∀ (n : Nat) (cur rest : List Char),
        pySplitColonAux (n + 1) cur (a ++ ':' :: rest)
          = (cur.reverse ++ a) :: pySplitColonAux n [] rest := by
  intro a
  induction a with
  | nil =>
    intro _ n cur rest
    simp [pySplitColonAux]
  | cons x a ih =>
    intro ha n cur rest
    rw [List.cons_append, pySplitColonAux,
      if_neg (ha x (List.mem_cons_self x a))]
    rw [ih (fun c hc => ha c (List.mem_cons_of_mem x hc)) n (x :: cur) rest]
    simp

/-- The character data of the rendered raw line. -/
theorem renderRawLine_data (m : Match) :
    (renderRawLine m).data
      = m.path.data ++ ':' :: ((intStr m.line_nr).data
          ++ ':' :: ((intStr m.col_nr).data ++ ':' :: m.content.data)) := by
  have hcolon : (":" : String).data = [':'] := rfl
  unfold renderRawLine
  simp [String.data_append, hcolon, List.append_assoc]

/-- The printed form of an integer contains no colon. -/
theorem intStr_no_colon (i : Int) : ∀ ch ∈ (intStr i).data, ¬ch = ':' := by
  intro ch hch heq
  subst heq
  unfold intStr at hch
  by_cases hneg : i < 0
  · rw [if_pos hneg] at hch
    have hdata : (String.mk ('-' :: natDigits i.natAbs)).data
        = '-' :: natDigits i.natAbs := rfl
    rw [hdata] at hch
    rcases List.mem_cons.mp hch with h1 | h2
    · exact absurd h1 (by decide)
    · exact absurd
        (natDigitsAux_digits (i.natAbs + 1) i.natAbs (by omega) ':' h2)
        (by decide)
  · rw [if_neg hneg] at hch
    have hdata : (String.mk (natDigits i.toNat)).data = natDigits i.toNat :=
      rfl
    rw [hdata] at hch
    exact absurd
      (natDigitsAux_digits (i.toNat + 1) i.toNat (by omega) ':' hch)
      (by decide)

/-- C3 counterexample: a match whose path contains a colon does not
round-trip: rendering `{path := "a:b", line 1, col 2, content "x"}` and
parsing yields a malformed-match error (the split severs the path at its
colon and `int("b")` fails), not the original match. -/
theorem c3_counterexample :
    parseMatchLine (renderRawLine ⟨"a:b", 1, 2, "x"⟩)
        = .error (.badInt "b")
      ∧ parseMatchLine (renderRawLine ⟨"a:b", 1, 2, "x"⟩)
        ≠ .ok ⟨"a:b", 1, 2, "x"⟩ :=
  ⟨by decide, by decide⟩

/-- C3 (amended): parsing the rendered raw line reconstructs the match
for every match whose content contains no newline, provided additionally
that its path contains no colon and carries no leading or trailing
whitespace (the parser splits on the first three colons and strips the
path field). -/
theorem parse_render_roundtrip (m : Match)
    (hpath_colon : ∀ ch ∈ m.path.data, ¬ch = ':')
    (hpath_strip : pyStrip m.path = m.path)
    (hcontent : ∀ ch ∈ m.content.data, ¬ch = '\n') :
    parseMatchLine (renderRawLine m) = .ok m := by
  have hsplit : pySplitColon3 (renderRawLine m)
      = [m.path, intStr m.line_nr, intStr m.col_nr, m.content] := by
    unfold pySplitColon3
    rw [renderRawLine_data m,
      pySplitColonAux_no_colon m.path.data hpath_colon 2 [] _,
      pySplitColonAux_no_colon (intStr m.line_nr).data
        (intStr_no_colon m.line_nr) 1 [] _,
      pySplitColonAux_no_colon (intStr m.col_nr).data
        (intStr_no_colon m.col_nr) 0 [] _,
      pySplitColonAux_zero]
    simp [mk_data]
  unfold parseMatchLine
  rw [hsplit]
  simp [parsePyInt_intStr, hpath_strip]

/-- C3 witness: the amended round trip at a concrete match whose content
contains a colon and a space. -/
theorem parse_render_roundtrip_witness :
    parseMatchLine (renderRawLine ⟨"a.py", 3, 7, "x: y"⟩)
      = .ok ⟨"a.py", 3, 7, "x: y"⟩ :=
  parse_render_roundtrip ⟨"a.py", 3, 7, "x: y"⟩ (by decide) (by decide)
    (by decide)

/-
Helper lemmas about the report renderer's mutation of its input.
-/

/-- `Except.map` on a success. -/
theorem except_map_ok {ε α β : Type} (f : α → β) (a : α) :
    (Except.ok a : Except ε α).map f = .ok (f a) := rfl

/-- When every dict still has its `path` key, the pop loop succeeds and
the mutated dicts are the inputs with `path` removed. -/
theorem pop_paths_ok (ms : List MatchDict)
    (h : ∀ m ∈ ms, m.path.isSome = true) :
    ∃ l, pop_paths ms = .ok l
      ∧ l.map Prod.snd = ms.map (fun m => { m with path := none }) := by
  induction ms with
  | nil => exact ⟨[], rfl, rfl⟩
  | cons m t ih =>
    obtain ⟨l, hl, hmap⟩ := ih (fun x hx => h x (List.mem_cons_of_mem m hx))
    obtain ⟨p, hp⟩ :=
      Option.isSome_iff_exists.mp (h m (List.mem_cons_self m t))
    refine ⟨(p, { m with path := none }) :: l, ?_, ?_⟩
    · simp [pop_paths, hp, hl]
    · simp [hmap]

/-- C10: rendering the grouped report removes the `path` key from every
input match record: on input dicts that all still carry their path, the
renderer succeeds and the final state of the input records is exactly the
input with each `path` set to removed (all other fields unchanged). -/
theorem render_matches_pops_paths (ms : List MatchDict) (q : String)
    (h : ∀ m ∈ ms, m.path.isSome = true) :
    (render_matches ms q).map Prod.snd
      = .ok (ms.map fun m => { m with path := none }) := by
  obtain ⟨l, hl, hmap⟩ := pop_paths_ok ms h
  unfold render_matches
  rw [hl, except_map_ok, except_map_ok]
  exact congrArg Except.ok hmap

/-- C10 witness: after rendering two matches on different paths, both
final records have no path field left. -/
theorem render_matches_pops_paths_witness :
    (render_matches
        [⟨some "a", 1, 2, "u"⟩, ⟨some "b", 3, 4, "v"⟩] "q").map Prod.snd
      = .ok [⟨none, 1, 2, "u"⟩, ⟨none, 3, 4, "v"⟩] :=
  render_matches_pops_paths
    [⟨some "a", 1, 2, "u"⟩, ⟨some "b", 3, 4, "v"⟩] "q" (by decide)

end GrepSearch
